import Mathlib

/-!
Shallow embedding of `compactor2/src/components/hardcoded.rs`: the hardcoded
component wiring of the compaction engine.  Component construction is modelled
as inductive trees mirroring the Rust constructor calls; scalar configuration
values are `Nat`, durations are in seconds.  Behaviour of collaborator
components whose sources are outside this file (filters, combinators) is
modelled from the specification where needed and marked as such.
-/

/-- `CompactionLevel`: ordered enumeration; mirrors `data_types::CompactionLevel`
with variants `Initial`, `FileNonOverlapped`, `Final`. -/
inductive CompactionLevel
  | initial
  | fileNonOverlapped
  | final
deriving DecidableEq, Repr

def CompactionLevel.toNat : CompactionLevel → Nat
  | .initial => 0
  | .fileNonOverlapped => 1
  | .final => 2

/-- `ErrorKind`: taxonomy of partition-processing failures, mirrors
`crate::error::ErrorKind` with variants ObjectStore, OutOfMemory, Timeout,
Unknown. -/
inductive ErrorKind
  | objectStore
  | outOfMemory
  | timeout
  | unknown
deriving DecidableEq, Repr

/-- Modelled from the spec: `ErrorKind::variants()` (in `error.rs`, not under
`src/`) returns all variants of the taxonomy {ObjectStore, OutOfMemory,
Timeout, Unknown}. -/
def ErrorKind.variants : List ErrorKind :=
  [.objectStore, .outOfMemory, .timeout, .unknown]

/-- `AlgoVersion`: compaction strategy selector, mirrors
`crate::config::AlgoVersion`. -/
inductive AlgoVersion
  | allAtOnce
  | targetLevel
deriving DecidableEq, Repr

/-- `PartitionsSourceConfig`: partition source strategy selector, mirrors
`crate::config::PartitionsSourceConfig`. -/
inductive PartitionsSourceConfig
  | catalogRecentWrites
  | catalogAll
  | fixed (ids : List Nat)
deriving DecidableEq, Repr

/-- Shard config: mirrors the `{n_shards, shard_id}` shard configuration. -/
structure ShardConfig where
  n_shards : Nat
  shard_id : Nat
deriving DecidableEq, Repr

/-- `Config`: the configuration fields of `crate::config::Config` that
`hardcoded_components` reads.  Fields holding external collaborators
(catalog handle, metric registry, time provider, executors) carry no decision
relevant to the wiring shape and are omitted. -/
structure Config where
  partitions_source : PartitionsSourceConfig
  shard_config : Option ShardConfig
  ignore_partition_skip_marker : Bool
  max_num_columns_per_table : Nat
  max_input_files_per_partition : Nat
  max_input_parquet_bytes_per_partition : Nat
  shadow_mode : Bool
  all_errors_are_fatal : Bool
  process_once : Bool
  simulate_without_object_store : Bool
  compact_version : AlgoVersion
  min_num_l1_files_to_compact : Nat
  max_desired_file_size_bytes : Nat
deriving DecidableEq, Repr

/-- File filters (`file_filter` module): `LevelRangeFileFilter` keeps files whose
compaction level lies in an inclusive range; `AndFileFilter` is a conjunction. -/
inductive FileFilterC
  | levelRange (lo hi : CompactionLevel)
  | andF (fs : List FileFilterC)

/-- Identity-only partition filters (`id_only_partition_filter` module):
`ShardPartitionFilter` and `AndIdOnlyPartitionFilter`. -/
inductive IdOnlyPartitionFilterC
  | shard (n_shards shard_id : Nat)
  | andId (fs : List IdOnlyPartitionFilterC)

/-- Partition filters (`partition_filter` module), one constructor per
implementation used by the wiring. -/
inductive PartitionFilterC
  | hasFiles
  | neverSkipped
  | maxNumColumns (n : Nat)
  | hasMatchingFile (f : FileFilterC)
  | greaterMatchingFiles (f : FileFilterC) (n : Nat)
  | greaterSizeMatchingFiles (f : FileFilterC) (n : Nat)
  | maxFiles (n : Nat)
  | maxParquetBytes (n : Nat)
  | orP (fs : List PartitionFilterC)
  | andP (fs : List PartitionFilterC)
  | logging (inner : PartitionFilterC)
  | metrics (inner : PartitionFilterC)

/-- Partitions sources (`partitions_source` module plus the combinator
wrappers of `combos`). -/
inductive PartitionsSourceC
  | catalogToCompact
  | catalogAll
  | mock (ids : List Nat)
  | filterWrapper (filter : IdOnlyPartitionFilterC) (inner : PartitionsSourceC)
  | uniqueWrapper (inner : PartitionsSourceC)
  | throttleWrapper (inner : PartitionsSourceC) (interval_secs : Nat)
  | randomizeOrder (inner : PartitionsSourceC) (seed : Nat)
  | logging (inner : PartitionsSourceC)
  | metrics (inner : PartitionsSourceC)
  | notEmpty (inner : PartitionsSourceC) (sleep_secs : Nat)

/-- Partition done sinks (`partition_done_sink` module plus combinator
wrappers). -/
inductive PartitionDoneSinkC
  | mock
  | catalog
  | uniqueWrapper (inner : PartitionDoneSinkC)
  | throttleWrapper (inner : PartitionDoneSinkC) (interval_secs : Nat)
  | errorKind (inner : PartitionDoneSinkC) (recoverable : List ErrorKind)
  | logging (inner : PartitionDoneSinkC)
  | metrics (inner : PartitionDoneSinkC)
deriving DecidableEq, Repr

/-- Commit implementations (`commit` module plus throttle wrapper). -/
inductive CommitC
  | mock
  | catalog
  | throttleWrapper (inner : CommitC)
  | logging (inner : CommitC)
  | metrics (inner : CommitC)
deriving DecidableEq, Repr

/-- Partition streams (`partition_stream` module). -/
inductive PartitionStreamC
  | once (source : PartitionsSourceC)
  | endless (source : PartitionsSourceC)

/-- Object stores as used by the scratchpad output slot. -/
inductive StoreC
  | ignoreWrites
  | realStore
deriving DecidableEq, Repr

/-- Scratchpad generators (`scratchpad` module); `prod` records the output
store passed as `scratchpad_store_output`. -/
inductive ScratchpadGenC
  | noop
  | prod (output : StoreC)
deriving DecidableEq, Repr

/-- Files filters (`files_filter` module): a chain of filters, each applying a
per-file filter to the file list. -/
inductive FilesFilterC
  | chain (fs : List FilesFilterC)
  | perFile (f : FileFilterC)

/-- The `Components` fields the wiring populates that the verified claims
mention. -/
structure Components where
  partition_stream : PartitionStreamC
  files_filter : FilesFilterC
  partition_filter : PartitionFilterC
  partition_done_sink : PartitionDoneSinkC
  commit : CommitC
  scratchpad_gen : ScratchpadGenC
  partition_resource_limit_filter : PartitionFilterC

/-- Modelled from the spec: `unique_partitions` (in
`combos/unique_partitions.rs`, not under `src/`) pairs the partitions source
and the partition done sink through a shared in-flight set; structurally both
are wrapped by the uniqueness combinator. -/
def unique_partitions (source : PartitionsSourceC) (sink : PartitionDoneSinkC)
    (_n : Nat) : PartitionsSourceC × PartitionDoneSinkC :=
  (.uniqueWrapper source, .uniqueWrapper sink)

/-- Modelled from the spec: `throttle_partition` (in
`combos/throttle_partition.rs`, not under `src/`) wraps the source, the commit
and the done sink around shared last-completion timestamps with a minimum
quiescent interval. -/
def throttle_partition (source : PartitionsSourceC) (commit : CommitC)
    (sink : PartitionDoneSinkC) (interval_secs : Nat) (_n : Nat) :
    PartitionsSourceC × CommitC × PartitionDoneSinkC :=
  (.throttleWrapper source interval_secs, .throttleWrapper commit,
    .throttleWrapper sink interval_secs)

/-- Strategy-specific partition continue conditions; mirrors
`version_specific_partition_filters` in `hardcoded.rs`. -/
def version_specific_partition_filters (config : Config) :
    List PartitionFilterC :=
  match config.compact_version with
  | .allAtOnce =>
    [.hasMatchingFile (.levelRange .initial .initial)]
  | .targetLevel =>
    [.orP
      [.hasMatchingFile (.levelRange .initial .initial),
        .greaterMatchingFiles (.levelRange .fileNonOverlapped .fileNonOverlapped)
          config.min_num_l1_files_to_compact,
        .greaterSizeMatchingFiles
          (.levelRange .fileNonOverlapped .fileNonOverlapped)
          config.max_desired_file_size_bytes]]

/-- Strategy-specific pre-classification files filter; mirrors
`version_specific_files_filter` in `hardcoded.rs`. -/
def version_specific_files_filter (config : Config) : FilesFilterC :=
  match config.compact_version with
  | .allAtOnce =>
    .chain [.perFile (.andF [.levelRange .initial .fileNonOverlapped])]
  | .targetLevel => .chain []

/-- The hardcoded component wiring; mirrors `hardcoded_components` in
`hardcoded.rs` line by line (logging/metrics decorators kept, external
collaborator handles dropped). -/
def hardcoded_components (config : Config) : Components :=
  let partitions_source : PartitionsSourceC :=
    match config.partitions_source with
    | .catalogRecentWrites => .catalogToCompact
    | .catalogAll => .catalogAll
    | .fixed ids => .mock ids
  let id_only_partition_filters : List IdOnlyPartitionFilterC :=
    match config.shard_config with
    | some shard_config => [.shard shard_config.n_shards shard_config.shard_id]
    | none => []
  let partitions_source : PartitionsSourceC :=
    .filterWrapper (.andId id_only_partition_filters) partitions_source
  let partition_filters : List PartitionFilterC :=
    [.hasFiles]
      ++ (if config.ignore_partition_skip_marker then [] else [.neverSkipped])
      ++ [.maxNumColumns config.max_num_columns_per_table]
      ++ version_specific_partition_filters config
  let partition_resource_limit_filters : List PartitionFilterC :=
    [.maxFiles config.max_input_files_per_partition,
      .maxParquetBytes config.max_input_parquet_bytes_per_partition]
  let partition_done_sink : PartitionDoneSinkC :=
    if config.shadow_mode then .mock else .catalog
  let commit : CommitC :=
    if config.shadow_mode then .mock else .catalog
  let scratchpad_store_output : StoreC :=
    if config.shadow_mode then .ignoreWrites else .realStore
  let sp := unique_partitions partitions_source partition_done_sink 1
  let partitions_source := sp.1
  let partition_done_sink := sp.2
  let spc := throttle_partition partitions_source commit partition_done_sink 60 1
  let partitions_source := spc.1
  let commit := spc.2.1
  let partition_done_sink := spc.2.2
  let partition_done_sink : PartitionDoneSinkC :=
    if config.all_errors_are_fatal then partition_done_sink
    else
      .errorKind partition_done_sink
        (ErrorKind.variants.filter fun kind =>
          match kind with
          | .outOfMemory | .timeout | .unknown => true
          | .objectStore => false)
  let partitions_source : PartitionsSourceC :=
    .logging (.metrics (.randomizeOrder partitions_source 1234))
  let partitions_source : PartitionsSourceC :=
    if config.process_once then partitions_source
    else .notEmpty partitions_source 5
  let partition_stream : PartitionStreamC :=
    if config.process_once then .once partitions_source
    else .endless partitions_source
  let scratchpad_gen : ScratchpadGenC :=
    if config.simulate_without_object_store then .noop
    else .prod scratchpad_store_output
  { partition_stream := partition_stream
    files_filter := version_specific_files_filter config
    partition_filter := .logging (.metrics (.andP partition_filters))
    partition_done_sink := .logging (.metrics partition_done_sink)
    commit := .logging (.metrics commit)
    scratchpad_gen := scratchpad_gen
    partition_resource_limit_filter :=
      .logging (.metrics (.andP partition_resource_limit_filters)) }

/-! ### File and partition data, filter semantics -/

/-- `ParquetFile` as used by the filter stages: compaction level and byte
size. -/
structure ParquetFile where
  level : CompactionLevel
  file_size_bytes : Nat
deriving DecidableEq, Repr

/-- Partition metadata a partition filter consults: file listing, skip marker,
column count. -/
structure PartitionCtx where
  files : List ParquetFile
  marked_skipped : Bool
  num_columns : Nat
deriving DecidableEq, Repr

mutual

/-- Modelled from the spec: file-filter semantics (`file_filter` module, not
under `src/`): a level-range filter keeps files whose compaction level lies in
the inclusive range; a conjunction keeps files matching all members. -/
def FileFilterC.matchesFile : FileFilterC → ParquetFile → Bool
  | .levelRange lo hi, f =>
    decide (lo.toNat ≤ f.level.toNat) && decide (f.level.toNat ≤ hi.toNat)
  | .andF fs, f => FileFilterC.allMatch fs f

def FileFilterC.allMatch : List FileFilterC → ParquetFile → Bool
  | [], _ => true
  | ff :: fs, f => ff.matchesFile f && FileFilterC.allMatch fs f

end

mutual

/-- Modelled from the spec: partition-filter semantics (`partition_filter`
module, not under `src/`): has-files, never-skipped (unless marker overridden),
column bound, matching-file presence/count/size conditions, resource bounds,
disjunction and conjunction; logging/metrics wrappers delegate. -/
def PartitionFilterC.holdsFor : PartitionFilterC → PartitionCtx → Bool
  | .hasFiles, ctx => !ctx.files.isEmpty
  | .neverSkipped, ctx => !ctx.marked_skipped
  | .maxNumColumns n, ctx => decide (ctx.num_columns ≤ n)
  | .hasMatchingFile ff, ctx => ctx.files.any fun f => ff.matchesFile f
  | .greaterMatchingFiles ff n, ctx =>
    decide (n < (ctx.files.filter fun f => ff.matchesFile f).length)
  | .greaterSizeMatchingFiles ff n, ctx =>
    decide (n <
      ((ctx.files.filter fun f => ff.matchesFile f).map
        ParquetFile.file_size_bytes).sum)
  | .maxFiles n, ctx => decide (ctx.files.length ≤ n)
  | .maxParquetBytes n, ctx =>
    decide ((ctx.files.map ParquetFile.file_size_bytes).sum ≤ n)
  | .orP fs, ctx => PartitionFilterC.anyHolds fs ctx
  | .andP fs, ctx => PartitionFilterC.allHold fs ctx
  | .logging inner, ctx => inner.holdsFor ctx
  | .metrics inner, ctx => inner.holdsFor ctx

def PartitionFilterC.anyHolds : List PartitionFilterC → PartitionCtx → Bool
  | [], _ => false
  | f :: fs, ctx => f.holdsFor ctx || PartitionFilterC.anyHolds fs ctx

def PartitionFilterC.allHold : List PartitionFilterC → PartitionCtx → Bool
  | [], _ => true
  | f :: fs, ctx => f.holdsFor ctx && PartitionFilterC.allHold fs ctx

end

mutual

/-- Modelled from the spec: identity-only partition-filter semantics
(`id_only_partition_filter` module, not under `src/`): the shard filter keeps
an identifier iff `hash(id) % n_shards == shard_id`; the conjunction keeps an
identifier iff all member predicates do (an empty conjunction keeps all). -/
def IdOnlyPartitionFilterC.keeps (hash : Nat → Nat) :
    IdOnlyPartitionFilterC → Nat → Bool
  | .shard n_shards shard_id, i => hash i % n_shards == shard_id
  | .andId fs, i => IdOnlyPartitionFilterC.allKeep hash fs i

def IdOnlyPartitionFilterC.allKeep (hash : Nat → Nat) :
    List IdOnlyPartitionFilterC → Nat → Bool
  | [], _ => true
  | f :: fs, i =>
    IdOnlyPartitionFilterC.keeps hash f i
      && IdOnlyPartitionFilterC.allKeep hash fs i

end

mutual

/-- Modelled from the spec: files-filter semantics (`files_filter` module, not
under `src/`): a chain applies its member filters in sequence; a per-file
filter keeps the files matching its file filter. -/
def FilesFilterC.applyTo : FilesFilterC → List ParquetFile → List ParquetFile
  | .chain fs, files => FilesFilterC.applyChain fs files
  | .perFile ff, files => files.filter fun f => ff.matchesFile f

def FilesFilterC.applyChain :
    List FilesFilterC → List ParquetFile → List ParquetFile
  | [], files => files
  | g :: gs, files => FilesFilterC.applyChain gs (g.applyTo files)

end

/-! ### Structural extraction over the component trees -/

/-- The seed of the randomize-order wrapper in a source chain, if present. -/
def PartitionsSourceC.seedOf : PartitionsSourceC → Option Nat
  | .catalogToCompact | .catalogAll | .mock _ => none
  | .randomizeOrder _ seed => some seed
  | .filterWrapper _ inner => inner.seedOf
  | .uniqueWrapper inner => inner.seedOf
  | .throttleWrapper inner _ => inner.seedOf
  | .logging inner => inner.seedOf
  | .metrics inner => inner.seedOf
  | .notEmpty inner _ => inner.seedOf

/-- The interval of the throttle wrapper in a source chain, if present. -/
def PartitionsSourceC.throttleIntervalOf : PartitionsSourceC → Option Nat
  | .catalogToCompact | .catalogAll | .mock _ => none
  | .throttleWrapper _ interval => some interval
  | .randomizeOrder inner _ => inner.throttleIntervalOf
  | .filterWrapper _ inner => inner.throttleIntervalOf
  | .uniqueWrapper inner => inner.throttleIntervalOf
  | .logging inner => inner.throttleIntervalOf
  | .metrics inner => inner.throttleIntervalOf
  | .notEmpty inner _ => inner.throttleIntervalOf

/-- The sleep interval of the not-empty wrapper in a source chain, if
present. -/
def PartitionsSourceC.notEmptySleepOf : PartitionsSourceC → Option Nat
  | .catalogToCompact | .catalogAll | .mock _ => none
  | .notEmpty _ sleep => some sleep
  | .randomizeOrder inner _ => inner.notEmptySleepOf
  | .filterWrapper _ inner => inner.notEmptySleepOf
  | .uniqueWrapper inner => inner.notEmptySleepOf
  | .throttleWrapper inner _ => inner.notEmptySleepOf
  | .logging inner => inner.notEmptySleepOf
  | .metrics inner => inner.notEmptySleepOf

/-- `true` iff a source chain contains no not-empty wrapper. -/
def PartitionsSourceC.notEmptyFree : PartitionsSourceC → Bool
  | .catalogToCompact | .catalogAll | .mock _ => true
  | .notEmpty _ _ => false
  | .randomizeOrder inner _ => inner.notEmptyFree
  | .filterWrapper _ inner => inner.notEmptyFree
  | .uniqueWrapper inner => inner.notEmptyFree
  | .throttleWrapper inner _ => inner.notEmptyFree
  | .logging inner => inner.notEmptyFree
  | .metrics inner => inner.notEmptyFree

/-- `true` iff a source chain contains the uniqueness wrapper. -/
def PartitionsSourceC.hasUnique : PartitionsSourceC → Bool
  | .catalogToCompact | .catalogAll | .mock _ => false
  | .uniqueWrapper _ => true
  | .randomizeOrder inner _ => inner.hasUnique
  | .filterWrapper _ inner => inner.hasUnique
  | .throttleWrapper inner _ => inner.hasUnique
  | .logging inner => inner.hasUnique
  | .metrics inner => inner.hasUnique
  | .notEmpty inner _ => inner.hasUnique

/-- Strip wrappers down to the identity-only filter layer, returning the
filter and the source it directly wraps. -/
def PartitionsSourceC.idFilterLayer :
    PartitionsSourceC → Option (IdOnlyPartitionFilterC × PartitionsSourceC)
  | .catalogToCompact | .catalogAll | .mock _ => none
  | .filterWrapper f inner => some (f, inner)
  | .randomizeOrder inner _ => inner.idFilterLayer
  | .uniqueWrapper inner => inner.idFilterLayer
  | .throttleWrapper inner _ => inner.idFilterLayer
  | .logging inner => inner.idFilterLayer
  | .metrics inner => inner.idFilterLayer
  | .notEmpty inner _ => inner.idFilterLayer

/-- `true` for the raw (unwrapped) partitions sources. -/
def PartitionsSourceC.isRaw : PartitionsSourceC → Bool
  | .catalogToCompact | .catalogAll | .mock _ => true
  | _ => false

/-- The source a partition stream draws from. -/
def PartitionStreamC.src : PartitionStreamC → PartitionsSourceC
  | .once s => s
  | .endless s => s

/-- `true` iff a done-sink chain contains no error-kind filter wrapper. -/
def PartitionDoneSinkC.errorKindFree : PartitionDoneSinkC → Bool
  | .mock | .catalog => true
  | .errorKind _ _ => false
  | .uniqueWrapper inner => inner.errorKindFree
  | .throttleWrapper inner _ => inner.errorKindFree
  | .logging inner => inner.errorKindFree
  | .metrics inner => inner.errorKindFree

/-- `true` iff a done-sink chain contains the uniqueness wrapper. -/
def PartitionDoneSinkC.hasUnique : PartitionDoneSinkC → Bool
  | .mock | .catalog => false
  | .uniqueWrapper _ => true
  | .errorKind inner _ => inner.hasUnique
  | .throttleWrapper inner _ => inner.hasUnique
  | .logging inner => inner.hasUnique
  | .metrics inner => inner.hasUnique

/-- The innermost (base) implementation of a done-sink chain. -/
def PartitionDoneSinkC.base : PartitionDoneSinkC → PartitionDoneSinkC
  | .mock => .mock
  | .catalog => .catalog
  | .errorKind inner _ => inner.base
  | .uniqueWrapper inner => inner.base
  | .throttleWrapper inner _ => inner.base
  | .logging inner => inner.base
  | .metrics inner => inner.base

/-- The innermost (base) implementation of a commit chain. -/
def CommitC.base : CommitC → CommitC
  | .mock => .mock
  | .catalog => .catalog
  | .throttleWrapper inner => inner.base
  | .logging inner => inner.base
  | .metrics inner => inner.base

/-- The output store of a scratchpad generator, if it has one. -/
def ScratchpadGenC.outputStore : ScratchpadGenC → Option StoreC
  | .noop => none
  | .prod output => some output

/-! ### Behavioural models of the combinators -/

/-- Events seen by the uniqueness combinator: the source emits an identifier,
or the done sink reports an identifier complete. -/
inductive UniqueEvent
  | emit (id : Nat)
  | complete (id : Nat)
deriving DecidableEq, Repr

/-- Modelled from the spec: the uniqueness combinator
(`combos/unique_partitions.rs`, not under `src/`) keeps a shared in-flight
set; an emission of an in-flight identifier is filtered out (flag `false`),
a fresh emission adds the identifier, and a completion reported to the paired
done sink removes it. -/
def uniqueStep (inflight : List Nat) : UniqueEvent → List Nat × Bool
  | .emit id =>
    if id ∈ inflight then (inflight, false) else (id :: inflight, true)
  | .complete id => (inflight.erase id, true)

/-- Run the uniqueness combinator over an event trace from a given in-flight
set. -/
def uniqueRunFrom (inflight : List Nat) : List UniqueEvent → List Nat
  | [] => inflight
  | e :: es => uniqueRunFrom (uniqueStep inflight e).1 es

/-- Modelled from the spec: the throttle stage
(`combos/throttle_partition.rs`, not under `src/`) retains last-seen
completion timestamps and re-admits an identifier only once the quiescent
interval has elapsed since its recorded completion. -/
def throttleAdmits (interval : Nat) (lastCompletion : List (Nat × Nat))
    (id now : Nat) : Bool :=
  match lastCompletion.lookup id with
  | some t => decide (t + interval ≤ now)
  | none => true

/-- Modelled from the spec: recording a completion of `id` at time `t` in the
throttle stage's companion structure. -/
def throttleRecord (lastCompletion : List (Nat × Nat)) (id t : Nat) :
    List (Nat × Nat) :=
  (id, t) :: lastCompletion

/-- Modelled from the spec: the randomize-order wrapper
(`partitions_source/randomize_order.rs`, not under `src/`) emits a
seed-determined permutation of the candidate identifiers; modelled as a
seed-keyed stable two-way split. -/
def seedBit (seed i : Nat) : Bool := (i * 2654435761 + seed) % 2 == 1

/-- The deterministic seed-keyed shuffle: ids whose seed bit is set first,
then the rest, each group in source order. -/
def seededShuffle (seed : Nat) (ids : List Nat) : List Nat :=
  ids.filter (fun i => seedBit seed i) ++ ids.filter (fun i => !seedBit seed i)

/-- The order in which a built component set emits a candidate identifier
batch: the seed-keyed shuffle under the seed wired into the source chain. -/
def emitOrder (config : Config) (ids : List Nat) : List Nat :=
  match ((hardcoded_components config).partition_stream.src).seedOf with
  | some seed => seededShuffle seed ids
  | none => ids

/-- Modelled from the spec: whether a commit implementation mutates the
catalog — the catalog-backed commit does, the mock performs no catalog
mutation, and wrappers delegate. -/
def CommitC.mutatesCatalog : CommitC → Bool
  | .mock => false
  | .catalog => true
  | .throttleWrapper inner => inner.mutatesCatalog
  | .logging inner => inner.mutatesCatalog
  | .metrics inner => inner.mutatesCatalog

/-- Modelled from the spec: whether a done-sink implementation mutates the
catalog — the catalog-backed sink does, the mock performs no catalog
mutation, and wrappers delegate to their inner sink. -/
def PartitionDoneSinkC.mutatesCatalog : PartitionDoneSinkC → Bool
  | .mock => false
  | .catalog => true
  | .uniqueWrapper inner => inner.mutatesCatalog
  | .throttleWrapper inner _ => inner.mutatesCatalog
  | .errorKind inner _ => inner.mutatesCatalog
  | .logging inner => inner.mutatesCatalog
  | .metrics inner => inner.mutatesCatalog

/-! ### Sample configurations (used to instantiate universal statements) -/

/-- A baseline configuration: continuous mode, no shard config, production
collaborators, tiered strategy. -/
def cfgA : Config :=
  { partitions_source := .catalogRecentWrites
    shard_config := none
    ignore_partition_skip_marker := false
    max_num_columns_per_table := 200
    max_input_files_per_partition := 1000
    max_input_parquet_bytes_per_partition := 100000
    shadow_mode := false
    all_errors_are_fatal := false
    process_once := false
    simulate_without_object_store := false
    compact_version := .targetLevel
    min_num_l1_files_to_compact := 10
    max_desired_file_size_bytes := 104857600 }

/-- A contrasting configuration: process-once shadow run with a shard config,
all errors fatal, simple strategy. -/
def cfgB : Config :=
  { partitions_source := .catalogAll
    shard_config := some { n_shards := 4, shard_id := 2 }
    ignore_partition_skip_marker := true
    max_num_columns_per_table := 50
    max_input_files_per_partition := 300
    max_input_parquet_bytes_per_partition := 777
    shadow_mode := true
    all_errors_are_fatal := true
    process_once := true
    simulate_without_object_store := false
    compact_version := .allAtOnce
    min_num_l1_files_to_compact := 3
    max_desired_file_size_bytes := 4096 }

/-! ### Helper lemmas -/

lemma uniqueRunFrom_nodup (es : List UniqueEvent) (inflight : List Nat)
    (h : inflight.Nodup) : (uniqueRunFrom inflight es).Nodup := by
  induction es generalizing inflight with
  | nil => exact h
  | cons e es ih =>
    cases e with
    | emit id =>
      by_cases hm : id ∈ inflight
      · simpa [uniqueRunFrom, uniqueStep, hm] using ih _ h
      · simpa [uniqueRunFrom, uniqueStep, hm] using
          ih _ (List.nodup_cons.mpr ⟨hm, h⟩)
    | complete id =>
      simpa [uniqueRunFrom, uniqueStep] using ih _ (h.erase id)

lemma seedOf_hardcoded (config : Config) :
    ((hardcoded_components config).partition_stream.src).seedOf = some 1234 := by
  unfold hardcoded_components
  rcases h : config.process_once <;>
    simp [h, PartitionStreamC.src, PartitionsSourceC.seedOf,
      unique_partitions, throttle_partition]

lemma matchesFile_levelRange_self (l : CompactionLevel) (f : ParquetFile) :
    FileFilterC.matchesFile (.levelRange l l) f = decide (f.level = l) := by
  rcases f with ⟨fl, sz⟩
  cases l <;> cases fl <;>
    simp [FileFilterC.matchesFile, CompactionLevel.toNat]

/-! ### Claims -/

/-- C3: for every configuration the throttle stage built by
`hardcoded_components` enforces a minimum quiescent interval between a
partition identifier's completion and its re-admission; the interval is a
parameter of the throttle combinator (configurable), and the value wired in is
60 seconds. -/
theorem claim_C3_throttle_interval (config : Config)
    (lastCompletion : List (Nat × Nat)) (id t now : Nat) :
    ((hardcoded_components config).partition_stream.src).throttleIntervalOf
        = some 60
      ∧ (∀ s c k i n,
          ((throttle_partition s c k i n).1).throttleIntervalOf = some i)
      ∧ (lastCompletion.lookup id = some t →
          throttleAdmits 60 lastCompletion id now = true → t + 60 ≤ now) := by
  refine ⟨?_, ?_, ?_⟩
  · unfold hardcoded_components
    rcases h : config.process_once <;>
      simp [h, PartitionStreamC.src, PartitionsSourceC.throttleIntervalOf,
        unique_partitions, throttle_partition]
  · intro s c k i n
    simp [throttle_partition, PartitionsSourceC.throttleIntervalOf]
  · intro hl ha
    simpa [throttleAdmits, hl] using ha

/-- C3 witness: the throttle interval of the baseline configuration is 60
seconds, and an identifier completed at time 100 is admitted at time 160 only
because 100 + 60 ≤ 160. -/
theorem claim_C3_throttle_interval_witness :
    ((hardcoded_components cfgA).partition_stream.src).throttleIntervalOf
        = some 60 ∧ (100 : Nat) + 60 ≤ 160 :=
  ⟨(claim_C3_throttle_interval cfgA [] 0 0 0).1,
    (claim_C3_throttle_interval cfgA [(7, 100)] 7 100 160).2.2 rfl (by decide)⟩

/-- C4: `hardcoded_components` pairs the partitions source and the partition
done sink through the uniqueness combinator: both chains carry the uniqueness
wrapper; an emission of an in-flight identifier is filtered out at emission;
the in-flight set never holds an identifier twice; and completion removes the
identifier, making it re-emittable. -/
theorem claim_C4_unique_pairing (config : Config) :
    (((hardcoded_components config).partition_stream.src).hasUnique = true
        ∧ ((hardcoded_components config).partition_done_sink).hasUnique = true)
      ∧ (∀ inflight id, id ∈ inflight →
          uniqueStep inflight (.emit id) = (inflight, false))
      ∧ (∀ es, (uniqueRunFrom [] es).Nodup)
      ∧ (∀ inflight id, inflight.Nodup →
          id ∉ (uniqueStep inflight (.complete id)).1) := by
  refine ⟨⟨?_, ?_⟩, ?_, ?_, ?_⟩
  · unfold hardcoded_components
    rcases h : config.process_once <;>
      simp [h, PartitionStreamC.src, PartitionsSourceC.hasUnique,
        unique_partitions, throttle_partition]
  · unfold hardcoded_components
    rcases h : config.all_errors_are_fatal <;>
      rcases hs : config.shadow_mode <;>
        simp [h, hs, PartitionDoneSinkC.hasUnique,
          unique_partitions, throttle_partition]
  · intro inflight id hm
    simp [uniqueStep, hm]
  · intro es
    exact uniqueRunFrom_nodup es [] List.nodup_nil
  · intro inflight id h
    simpa [uniqueStep] using h.not_mem_erase

/-- C4 witness: with identifier 5 in flight, a re-emission of 5 is filtered
out, and completing 5 removes it from the in-flight set. -/
theorem claim_C4_unique_pairing_witness :
    uniqueStep [5, 3] (.emit 5) = ([5, 3], false)
      ∧ 5 ∉ (uniqueStep [5, 3] (.complete 5)).1 :=
  ⟨(claim_C4_unique_pairing cfgA).2.1 [5, 3] 5 (by decide),
    (claim_C4_unique_pairing cfgA).2.2.2 [5, 3] 5 (by decide)⟩

/-- C8: the partitions source randomizes emission order through the
randomize-order wrapper wired with the fixed seed 1234; the emission order is
the same across runs and even across configurations, and is a permutation of
the candidate set. -/
theorem claim_C8_fixed_seed_reproducible (c1 c2 : Config) (ids : List Nat) :
    ((hardcoded_components c1).partition_stream.src).seedOf = some 1234
      ∧ emitOrder c1 ids = emitOrder c2 ids
      ∧ (emitOrder c1 ids).Perm ids := by
  refine ⟨seedOf_hardcoded c1, ?_, ?_⟩
  · simp [emitOrder, seedOf_hardcoded]
  · simp only [emitOrder, seedOf_hardcoded]
    exact List.filter_append_perm _ ids

/-- The recoverable-kind list of the error-kind filter wrapper in a done-sink
chain, if the wrapper is present. -/
def PartitionDoneSinkC.errorKindRecoverable :
    PartitionDoneSinkC → Option (List ErrorKind)
  | .mock | .catalog => none
  | .errorKind _ recoverable => some recoverable
  | .uniqueWrapper inner => inner.errorKindRecoverable
  | .throttleWrapper inner _ => inner.errorKindRecoverable
  | .logging inner => inner.errorKindRecoverable
  | .metrics inner => inner.errorKindRecoverable

/-- The raw partitions source selected from the source-strategy configuration;
mirrors the first `match` of `hardcoded_components`. -/
def rawSourceOf (config : Config) : PartitionsSourceC :=
  match config.partitions_source with
  | .catalogRecentWrites => .catalogToCompact
  | .catalogAll => .catalogAll
  | .fixed ids => .mock ids

/-- `true` iff a partition stream is the once-draining variant. -/
def PartitionStreamC.isOnce : PartitionStreamC → Bool
  | .once _ => true
  | .endless _ => false

/-- C1: with "all errors fatal" unset, the partition done sink carries an
error-kind filter whose recoverable kinds are exactly OutOfMemory, Timeout and
Unknown — i.e. every kind except ObjectStore; with the flag set, no error-kind
filter appears anywhere in the sink chain. -/
theorem claim_C1_error_kind_policy (config : Config) :
    (config.all_errors_are_fatal = false →
      ((hardcoded_components config).partition_done_sink).errorKindRecoverable
          = some [.outOfMemory, .timeout, .unknown]
        ∧ (∀ kind : ErrorKind,
            kind ∈ [ErrorKind.outOfMemory, ErrorKind.timeout, ErrorKind.unknown]
              ↔ kind ≠ .objectStore))
      ∧ (config.all_errors_are_fatal = true →
        ((hardcoded_components config).partition_done_sink).errorKindFree
          = true) := by
  constructor
  · intro h
    refine ⟨?_, fun kind => by cases kind <;> simp⟩
    unfold hardcoded_components
    rcases hs : config.shadow_mode <;>
      simp [h, hs, unique_partitions, throttle_partition, ErrorKind.variants,
        PartitionDoneSinkC.errorKindRecoverable]
  · intro h
    unfold hardcoded_components
    rcases hs : config.shadow_mode <;>
      simp [h, hs, unique_partitions, throttle_partition,
        PartitionDoneSinkC.errorKindFree]

/-- C1 witness: the baseline configuration (flag unset) carries the
error-kind filter with recoverable kinds {OutOfMemory, Timeout, Unknown}; the
contrasting configuration (flag set) has none. -/
theorem claim_C1_error_kind_policy_witness :
    ((hardcoded_components cfgA).partition_done_sink).errorKindRecoverable
        = some [.outOfMemory, .timeout, .unknown]
      ∧ ((hardcoded_components cfgB).partition_done_sink).errorKindFree
        = true :=
  ⟨((claim_C1_error_kind_policy cfgA).1 rfl).1,
    (claim_C1_error_kind_policy cfgB).2 rfl⟩

/-- C2: with a shard config present, the identity-only filter layer sits
directly around the raw partitions source (beneath the unique, throttle and
stream stages) and is the conjunction of exactly the shard predicate
`hash(id) % n_shards == shard_id`; with no shard config the layer is the empty
conjunction, which keeps every identifier. -/
theorem claim_C2_shard_filter (config : Config) (hash : Nat → Nat) (i : Nat) :
    (rawSourceOf config).isRaw = true
      ∧ (∀ sc, config.shard_config = some sc →
        ((hardcoded_components config).partition_stream.src).idFilterLayer
            = some (.andId [.shard sc.n_shards sc.shard_id], rawSourceOf config)
          ∧ IdOnlyPartitionFilterC.keeps hash
              (.andId [.shard sc.n_shards sc.shard_id]) i
              = (hash i % sc.n_shards == sc.shard_id))
      ∧ (config.shard_config = none →
        ((hardcoded_components config).partition_stream.src).idFilterLayer
            = some (.andId [], rawSourceOf config)
          ∧ IdOnlyPartitionFilterC.keeps hash (.andId []) i = true) := by
  refine ⟨?_, ?_, ?_⟩
  · rcases hp : config.partitions_source <;>
      simp [rawSourceOf, hp, PartitionsSourceC.isRaw]
  · intro sc hsc
    refine ⟨?_, by simp [IdOnlyPartitionFilterC.keeps,
      IdOnlyPartitionFilterC.allKeep]⟩
    unfold hardcoded_components rawSourceOf
    rcases h : config.process_once <;> rcases hp : config.partitions_source <;>
      simp [h, hp, hsc, PartitionStreamC.src, PartitionsSourceC.idFilterLayer,
        unique_partitions, throttle_partition]
  · intro hsc
    refine ⟨?_, by simp [IdOnlyPartitionFilterC.keeps,
      IdOnlyPartitionFilterC.allKeep]⟩
    unfold hardcoded_components rawSourceOf
    rcases h : config.process_once <;> rcases hp : config.partitions_source <;>
      simp [h, hp, hsc, PartitionStreamC.src, PartitionsSourceC.idFilterLayer,
        unique_partitions, throttle_partition]

/-- C2 witness: the contrasting configuration carries shard config {4, 2}; an
identifier hashing to 6 fails the predicate (6 % 4 ≠ 2) and the layer keeps it
out; the baseline configuration has the empty conjunction, which keeps the
identifier. -/
theorem claim_C2_shard_filter_witness :
    (((hardcoded_components cfgB).partition_stream.src).idFilterLayer
        = some (.andId [.shard 4 2], rawSourceOf cfgB)
      ∧ IdOnlyPartitionFilterC.keeps (fun i => i) (.andId [.shard 4 2]) 6
          = (6 % 4 == 2))
      ∧ ((hardcoded_components cfgA).partition_stream.src).idFilterLayer
          = some (.andId [], rawSourceOf cfgA)
      ∧ IdOnlyPartitionFilterC.keeps (fun i => i) (.andId []) 6 = true :=
  ⟨(claim_C2_shard_filter cfgB (fun i => i) 6).2.1
      { n_shards := 4, shard_id := 2 } rfl,
    (claim_C2_shard_filter cfgA (fun i => i) 6).2.2 rfl⟩

/-- C7: with the process-once flag set the stream is the once-draining
variant and its source chain carries no not-empty backoff wrapper; without the
flag the stream is endless and its source chain carries the not-empty wrapper
with a 5-second sleep. -/
theorem claim_C7_termination_modes (config : Config) :
    (config.process_once = true →
      (hardcoded_components config).partition_stream.isOnce = true
        ∧ ((hardcoded_components config).partition_stream.src).notEmptyFree
            = true)
      ∧ (config.process_once = false →
        (hardcoded_components config).partition_stream.isOnce = false
          ∧ ((hardcoded_components config).partition_stream.src).notEmptySleepOf
              = some 5) := by
  constructor
  · intro h
    unfold hardcoded_components
    rcases hp : config.partitions_source <;>
      simp [h, hp, unique_partitions, throttle_partition,
        PartitionStreamC.isOnce, PartitionStreamC.src,
        PartitionsSourceC.notEmptyFree]
  · intro h
    unfold hardcoded_components
    simp [h, unique_partitions, throttle_partition, PartitionStreamC.isOnce,
      PartitionStreamC.src, PartitionsSourceC.notEmptySleepOf]

/-- C7 witness: the contrasting configuration (process-once) yields the
once-draining stream without the backoff wrapper; the baseline yields the
endless stream with the 5-second not-empty wrapper. -/
theorem claim_C7_termination_modes_witness :
    ((hardcoded_components cfgB).partition_stream.isOnce = true
      ∧ ((hardcoded_components cfgB).partition_stream.src).notEmptyFree = true)
      ∧ (hardcoded_components cfgA).partition_stream.isOnce = false
      ∧ ((hardcoded_components cfgA).partition_stream.src).notEmptySleepOf
          = some 5 :=
  ⟨(claim_C7_termination_modes cfgB).1 rfl,
    (claim_C7_termination_modes cfgA).2 rfl⟩

/-- C9: in shadow mode the commit and the partition done sink bottom out in
mocks (no catalog mutation anywhere in either chain) and the scratchpad output
store, when one exists, ignores writes; without shadow mode both bottom out in
the catalog-backed implementations and the scratchpad output store, when one
exists, is the real object store. -/
theorem claim_C9_shadow_mode (config : Config) :
    (config.shadow_mode = true →
      ((hardcoded_components config).commit).base = .mock
        ∧ ((hardcoded_components config).commit).mutatesCatalog = false
        ∧ ((hardcoded_components config).partition_done_sink).base = .mock
        ∧ ((hardcoded_components config).partition_done_sink).mutatesCatalog
            = false
        ∧ (∀ store,
            ((hardcoded_components config).scratchpad_gen).outputStore
                = some store → store = .ignoreWrites))
      ∧ (config.shadow_mode = false →
        ((hardcoded_components config).commit).base = .catalog
          ∧ ((hardcoded_components config).partition_done_sink).base = .catalog
          ∧ (∀ store,
              ((hardcoded_components config).scratchpad_gen).outputStore
                  = some store → store = .realStore)) := by
  constructor
  · intro h
    unfold hardcoded_components
    rcases hf : config.all_errors_are_fatal <;>
      rcases hsim : config.simulate_without_object_store <;>
        simp [h, hf, hsim, unique_partitions, throttle_partition,
          CommitC.base, CommitC.mutatesCatalog, PartitionDoneSinkC.base,
          PartitionDoneSinkC.mutatesCatalog, ScratchpadGenC.outputStore]
  · intro h
    unfold hardcoded_components
    rcases hf : config.all_errors_are_fatal <;>
      rcases hsim : config.simulate_without_object_store <;>
        simp [h, hf, hsim, unique_partitions, throttle_partition,
          CommitC.base, PartitionDoneSinkC.base, ScratchpadGenC.outputStore]

/-- C9 witness: the contrasting configuration (shadow mode) bottoms out in
mocks; the baseline bottoms out in the catalog-backed implementations. -/
theorem claim_C9_shadow_mode_witness :
    ((hardcoded_components cfgB).commit).base = .mock
      ∧ ((hardcoded_components cfgA).commit).base = .catalog :=
  ⟨((claim_C9_shadow_mode cfgB).1 rfl).1, ((claim_C9_shadow_mode cfgA).2 rfl).1⟩

/-- The continue-condition filter list built by `hardcoded_components`;
mirrors the `partition_filters` accumulation. -/
def continueFiltersOf (config : Config) : List PartitionFilterC :=
  [.hasFiles]
    ++ (if config.ignore_partition_skip_marker then [] else [.neverSkipped])
    ++ [.maxNumColumns config.max_num_columns_per_table]
    ++ version_specific_partition_filters config

lemma any_matches_level (files : List ParquetFile) (l : CompactionLevel) :
    (files.any fun f => FileFilterC.matchesFile (.levelRange l l) f) = true
      ↔ ∃ f ∈ files, f.level = l := by
  simp [matchesFile_levelRange_self]

lemma filter_matches_level (files : List ParquetFile) (l : CompactionLevel) :
    (files.filter fun f => FileFilterC.matchesFile (.levelRange l l) f)
      = files.filter fun f => decide (f.level = l) :=
  List.filter_congr fun f _ => matchesFile_levelRange_self l f

/-- C5: the wiring builds two separately-evaluated conjunctions: the
continue-condition conjunction (has-files; never-skipped unless the ignore
flag overrides it; column bound; plus the strategy-specific condition) and a
distinct resource-limit conjunction of exactly the maximum-input-file-count
and maximum-total-input-bytes filters; no resource-limit filter occurs in the
continue-condition conjunction. -/
theorem claim_C5_two_conjunctions (config : Config) (n : Nat) :
    (hardcoded_components config).partition_filter
        = .logging (.metrics (.andP (continueFiltersOf config)))
      ∧ (hardcoded_components config).partition_resource_limit_filter
        = .logging (.metrics (.andP
            [.maxFiles config.max_input_files_per_partition,
              .maxParquetBytes config.max_input_parquet_bytes_per_partition]))
      ∧ PartitionFilterC.hasFiles ∈ continueFiltersOf config
      ∧ (PartitionFilterC.neverSkipped ∈ continueFiltersOf config
          ↔ config.ignore_partition_skip_marker = false)
      ∧ PartitionFilterC.maxNumColumns config.max_num_columns_per_table
          ∈ continueFiltersOf config
      ∧ (∀ f ∈ version_specific_partition_filters config,
          f ∈ continueFiltersOf config)
      ∧ PartitionFilterC.maxFiles n ∉ continueFiltersOf config
      ∧ PartitionFilterC.maxParquetBytes n ∉ continueFiltersOf config := by
  refine ⟨?_, ?_, ?_, ?_, ?_, ?_, ?_, ?_⟩
  · unfold hardcoded_components continueFiltersOf
    simp [unique_partitions, throttle_partition]
  · unfold hardcoded_components
    simp [unique_partitions, throttle_partition]
  · simp [continueFiltersOf]
  · rcases hi : config.ignore_partition_skip_marker <;>
      rcases hv : config.compact_version <;>
        simp [continueFiltersOf, version_specific_partition_filters, hi, hv]
  · simp [continueFiltersOf]
  · intro f hf
    simp [continueFiltersOf, hf]
  · rcases hi : config.ignore_partition_skip_marker <;>
      rcases hv : config.compact_version <;>
        simp [continueFiltersOf, version_specific_partition_filters, hi, hv]
  · rcases hi : config.ignore_partition_skip_marker <;>
      rcases hv : config.compact_version <;>
        simp [continueFiltersOf, version_specific_partition_filters, hi, hv]

/-- C5 witness: the baseline configuration's two conjunction fields have the
stated shapes and the continue list contains no resource-limit filter. -/
theorem claim_C5_two_conjunctions_witness :
    (hardcoded_components cfgA).partition_filter
        = .logging (.metrics (.andP (continueFiltersOf cfgA)))
      ∧ PartitionFilterC.maxFiles 1000 ∉ continueFiltersOf cfgA :=
  ⟨(claim_C5_two_conjunctions cfgA 1000).1,
    (claim_C5_two_conjunctions cfgA 1000).2.2.2.2.2.2.1⟩

/-- C6: the strategy-specific continue condition is, under the simple
strategy, exactly one filter requiring an Initial-level file; under the tiered
strategy it holds iff an Initial-level file exists, or the FileNonOverlapped
file count exceeds the configured minimum, or the FileNonOverlapped total size
exceeds the configured maximum desired file size. -/
theorem claim_C6_strategy_continue_conditions (config : Config)
    (ctx : PartitionCtx) :
    (config.compact_version = .allAtOnce →
      version_specific_partition_filters config
          = [.hasMatchingFile (.levelRange .initial .initial)]
        ∧ (PartitionFilterC.allHold (version_specific_partition_filters config)
              ctx = true ↔ ∃ f ∈ ctx.files, f.level = .initial))
      ∧ (config.compact_version = .targetLevel →
        (PartitionFilterC.allHold (version_specific_partition_filters config)
            ctx = true
          ↔ (∃ f ∈ ctx.files, f.level = .initial)
            ∨ config.min_num_l1_files_to_compact <
                (ctx.files.filter fun f =>
                  decide (f.level = CompactionLevel.fileNonOverlapped)).length
            ∨ config.max_desired_file_size_bytes <
                ((ctx.files.filter fun f =>
                  decide (f.level = CompactionLevel.fileNonOverlapped)).map
                  ParquetFile.file_size_bytes).sum)) := by
  constructor
  · intro hv
    refine ⟨by simp [version_specific_partition_filters, hv], ?_⟩
    simp [version_specific_partition_filters, hv, PartitionFilterC.allHold,
      PartitionFilterC.holdsFor, matchesFile_levelRange_self]
  · intro hv
    simp [version_specific_partition_filters, hv, PartitionFilterC.allHold,
      PartitionFilterC.holdsFor, PartitionFilterC.anyHolds,
      matchesFile_levelRange_self, filter_matches_level]

/-- C6 witness: under the simple strategy a partition with one Initial-level
file passes the strategy-specific condition; under the tiered strategy a
partition with eleven FileNonOverlapped files (minimum 10) passes it. -/
theorem claim_C6_strategy_continue_conditions_witness :
    (∃ f ∈ [ParquetFile.mk .initial 5], f.level = CompactionLevel.initial)
      ∧ ((∃ f ∈ (List.replicate 11 (ParquetFile.mk .fileNonOverlapped 5)),
            f.level = CompactionLevel.initial)
          ∨ cfgA.min_num_l1_files_to_compact <
              ((List.replicate 11 (ParquetFile.mk .fileNonOverlapped 5)).filter
                fun f =>
                  decide (f.level = CompactionLevel.fileNonOverlapped)).length
          ∨ cfgA.max_desired_file_size_bytes <
              (((List.replicate 11 (ParquetFile.mk .fileNonOverlapped 5)).filter
                fun f =>
                  decide (f.level = CompactionLevel.fileNonOverlapped)).map
                ParquetFile.file_size_bytes).sum) :=
  ⟨((claim_C6_strategy_continue_conditions cfgB
        ⟨[ParquetFile.mk .initial 5], false, 3⟩).1 rfl).2.mp (by decide),
    (claim_C6_strategy_continue_conditions cfgA
        ⟨List.replicate 11 (ParquetFile.mk .fileNonOverlapped 5), false, 3⟩).2
      rfl |>.mp (by decide)⟩

/-- C10: the pre-classification files filter keeps, under the simple strategy,
exactly the files whose level lies in the range Initial through
FileNonOverlapped — so Final-level files are excluded — and, under the tiered
strategy, every file of the partition. -/
theorem claim_C10_files_filter (config : Config) (files : List ParquetFile)
    (f : ParquetFile) :
    (config.compact_version = .allAtOnce →
      (f ∈ ((hardcoded_components config).files_filter).applyTo files
        ↔ f ∈ files
          ∧ (f.level = CompactionLevel.initial
            ∨ f.level = CompactionLevel.fileNonOverlapped))
      ∧ (f.level = CompactionLevel.final →
        f ∉ ((hardcoded_components config).files_filter).applyTo files))
      ∧ (config.compact_version = .targetLevel →
        ((hardcoded_components config).files_filter).applyTo files = files) := by
  have hff : (hardcoded_components config).files_filter
      = version_specific_files_filter config := by
    unfold hardcoded_components
    simp [unique_partitions, throttle_partition]
  constructor
  · intro hv
    constructor
    · rw [hff]
      rcases f with ⟨fl, sz⟩
      cases fl <;>
        simp [version_specific_files_filter, hv, FilesFilterC.applyTo,
          FilesFilterC.applyChain, FileFilterC.matchesFile,
          FileFilterC.allMatch, CompactionLevel.toNat, List.mem_filter]
    · intro hl hmem
      rw [hff] at hmem
      simp [version_specific_files_filter, hv, FilesFilterC.applyTo,
        FilesFilterC.applyChain, FileFilterC.matchesFile, FileFilterC.allMatch,
        CompactionLevel.toNat, List.mem_filter, hl] at hmem
  · intro hv
    rw [hff]
    simp [version_specific_files_filter, hv, FilesFilterC.applyTo,
      FilesFilterC.applyChain]

/-- C10 witness: under the simple strategy an Initial-level file is kept and a
Final-level file is excluded; under the tiered strategy the file list passes
unchanged. -/
theorem claim_C10_files_filter_witness :
    (ParquetFile.mk .initial 5 ∈
        ((hardcoded_components cfgB).files_filter).applyTo
          [ParquetFile.mk .initial 5, ParquetFile.mk .final 9]
      ∧ ParquetFile.mk .final 9 ∉
          ((hardcoded_components cfgB).files_filter).applyTo
            [ParquetFile.mk .initial 5, ParquetFile.mk .final 9])
      ∧ ((hardcoded_components cfgA).files_filter).applyTo
          [ParquetFile.mk .final 9] = [ParquetFile.mk .final 9] :=
  ⟨⟨((claim_C10_files_filter cfgB
        [ParquetFile.mk .initial 5, ParquetFile.mk .final 9]
        (ParquetFile.mk .initial 5)).1 rfl).1.mpr (by simp),
    ((claim_C10_files_filter cfgB
        [ParquetFile.mk .initial 5, ParquetFile.mk .final 9]
        (ParquetFile.mk .final 9)).1 rfl).2 rfl⟩,
    (claim_C10_files_filter cfgA [ParquetFile.mk .final 9]
        (ParquetFile.mk .final 9)).2 rfl⟩
